import Mathlib

/-!
Verification development for the Tiktok-backend repository (src/server.js).

The single source file contains three near-duplicate variant servers,
referred to below as variant 1 (TikWM in-session fetch), variant 2
(Countik scroll scraper) and variant 3 (TikWM page-navigation scraper).

Modelling conventions:
* JS numbers are modelled as exact rational arithmetic over `ℚ`
  (integral view counts as `ℤ`); `NaN` is modelled explicitly by
  `JSNum.nan`.  IEEE-754 rounding noise is not modelled.
* JS strings are modelled as `String` / `List Char`.
* The on-disk JSON objects (watch list, view history) are modelled as
  insertion-ordered association lists with JS-object assignment
  semantics (`objSet`): an existing key is updated in place, a new key
  is appended.
-/

/-- JS whitespace test used by `String.prototype.trim` (common cases). -/
def isWs (c : Char) : Bool :=
  c = ' ' || c = '\t' || c = '\n' || c = '\r'

/-- `String.prototype.trim`: drop whitespace from both ends. -/
def jsTrim (l : List Char) : List Char :=
  ((l.dropWhile isWs).reverse.dropWhile isWs).reverse

/-- `String.prototype.replace(c, '')` with a one-character string pattern:
removes only the first occurrence. -/
def removeFirst (c : Char) : List Char → List Char
  | [] => []
  | x :: xs => if x = c then xs else x :: removeFirst c xs

/-- `String.prototype.replace(/c/g, '')`: removes every occurrence. -/
def removeAll (c : Char) (l : List Char) : List Char :=
  l.filter (fun x => x != c)

/-- Numeric value of a decimal digit character. -/
def digitVal (c : Char) : ℕ := c.toNat - '0'.toNat

/-- Value of a digit list read in base 10, starting from accumulator `a`. -/
def digitsValFrom (a : ℕ) (l : List Char) : ℕ :=
  l.foldl (fun acc c => 10 * acc + digitVal c) a

/-- Value of a digit list read in base 10. -/
def digitsVal (l : List Char) : ℕ := digitsValFrom 0 l

/-- Optional leading sign of a JS numeric literal; returns
(is-negative, remaining characters). -/
def parseSign (l : List Char) : Bool × List Char :=
  match l with
  | [] => (false, l)
  | x :: xs => if x = '-' then (true, xs) else if x = '+' then (false, xs) else (false, l)

/-- Syntactic analysis of a JS decimal literal: sign, integer-part value,
fraction digits (value and count), exponent sign and value. -/
structure FloatSyn where
  neg : Bool
  intVal : ℕ
  fracVal : ℕ
  fracLen : ℕ
  expNeg : Bool
  expVal : ℕ
deriving DecidableEq, Repr

/-- Character-level phase of JS `parseFloat`: longest valid
decimal-literal prefix after leading whitespace; `none` models `NaN`.
The `Infinity` literal and double overflow are not modelled. -/
def jsParseFloatSyn (l : List Char) : Option FloatSyn :=
  let l1 := l.dropWhile isWs
  let s := parseSign l1
  let intPart := s.2.takeWhile Char.isDigit
  let r2 := s.2.dropWhile Char.isDigit
  let fr : List Char × List Char :=
    match r2 with
    | c :: rest =>
      if c = '.' then (rest.takeWhile Char.isDigit, rest.dropWhile Char.isDigit)
      else ([], r2)
    | [] => ([], r2)
  if intPart.isEmpty && fr.1.isEmpty then none
  else
    let ex : Bool × ℕ :=
      match fr.2 with
      | c :: es =>
        if c = 'e' ∨ c = 'E' then
          let p := parseSign es
          let ed := p.2.takeWhile Char.isDigit
          if ed.isEmpty then (false, 0) else (p.1, digitsVal ed)
        else (false, 0)
      | [] => (false, 0)
    some ⟨s.1, digitsVal intPart, digitsVal fr.1, fr.1.length, ex.1, ex.2⟩

/-- Exact rational value of a parsed JS decimal literal. -/
def FloatSyn.val (f : FloatSyn) : ℚ :=
  let mant : ℚ := (f.intVal : ℚ) + (f.fracVal : ℚ) / ((10 ^ f.fracLen : ℕ) : ℚ)
  let sgn : ℚ := if f.neg then -mant else mant
  if f.expNeg then sgn / ((10 ^ f.expVal : ℕ) : ℚ) else sgn * ((10 ^ f.expVal : ℕ) : ℚ)

/-- Model of JS `parseFloat` (exact rational semantics). -/
def jsParseFloat (l : List Char) : Option ℚ :=
  (jsParseFloatSyn l).map FloatSyn.val

/-- Model of JS `parseInt(s, 10)`: sign and longest digit prefix after
leading whitespace; `none` models `NaN`. -/
def jsParseInt (l : List Char) : Option ℤ :=
  let l1 := l.dropWhile isWs
  let s := parseSign l1
  let ds := s.2.takeWhile Char.isDigit
  if ds.isEmpty then none
  else some (if s.1 then -(digitsVal ds : ℤ) else (digitsVal ds : ℤ))

/-- A JS number: either `NaN` or an exact rational value. -/
inductive JSNum where
  | nan : JSNum
  | num : ℚ → JSNum
deriving DecidableEq, Repr

/-- Multiplication of a JS number by a constant (`NaN` propagates). -/
def JSNum.scale (x : JSNum) (k : ℚ) : JSNum :=
  match x with
  | .nan => .nan
  | .num q => .num (q * k)

/-- Lift a `parseFloat` result to a JS number. -/
def ofParseFloat (o : Option ℚ) : JSNum :=
  match o with
  | none => .nan
  | some q => .num q

/-- Embedding of `parseViewCount` (src/server.js, variant 1, lines 39-46)
for string inputs.  `if (!str) return 0` is the empty-string guard;
`typeof str === 'number'` does not apply to strings.  Note that the
source checks `includes('M')` / `includes('K')` anywhere in the
uppercased trimmed string, replaces only the first occurrence, strips
commas only in the suffix-free branch, and never floors. -/
def parseViewCount (str : String) : JSNum :=
  if str.data = [] then .num 0
  else
    let s := jsTrim (str.data.map Char.toUpper)
    if s.contains 'M' then (ofParseFloat (jsParseFloat (removeFirst 'M' s))).scale 1000000
    else if s.contains 'K' then (ofParseFloat (jsParseFloat (removeFirst 'K' s))).scale 1000
    else .num (((jsParseInt (removeAll ',' s)).getD 0 : ℤ) : ℚ)

/-- Decimal digit characters of `n`, most significant first (fuelled
recursion; the fuel `n + 1` always suffices). -/
def natDigitsGo : ℕ → ℕ → List Char
  | 0, _ => []
  | fuel + 1, n =>
    if n < 10 then [Nat.digitChar n]
    else natDigitsGo fuel (n / 10) ++ [Nat.digitChar (n % 10)]

/-- Decimal digit characters of `n`, most significant first. -/
def natDigits (n : ℕ) : List Char := natDigitsGo (n + 1) n

/-- JS `Number.prototype.toString()` for an integral value. -/
def intToChars (z : ℤ) : List Char :=
  if z < 0 then '-' :: natDigits z.natAbs else natDigits z.toNat

/-- Render `m` tenths as a one-decimal digit string (digit phase of
`toFixed(1)`). -/
def toFixed1Digits (m : ℤ) : List Char :=
  if m < 0 then
    '-' :: (natDigits (m.natAbs / 10) ++ ['.', Nat.digitChar (m.natAbs % 10)])
  else
    natDigits (m.toNat / 10) ++ ['.', Nat.digitChar (m.toNat % 10)]

/-- JS `Number.prototype.toFixed(1)` on an exact rational: round to the
nearest multiple of 1/10 (ties toward the larger value, as the spec of
`toFixed` picks the larger candidate) and print with one decimal. -/
def toFixed1 (q : ℚ) : List Char :=
  toFixed1Digits (round (q * 10))

/-- Embedding of `formatViewCount` (src/server.js, variant 1, lines 48-52)
at the integral view counts it is applied to in the source. -/
def formatViewCount (num : ℤ) : String :=
  if 1000000 ≤ num then ⟨toFixed1 ((num : ℚ) / 1000000) ++ ['M']⟩
  else if 1000 ≤ num then ⟨toFixed1 ((num : ℚ) / 1000) ++ ['K']⟩
  else ⟨intToChars num⟩

/-- The canonical one-decimal `K`-suffixed string `⟨n⟩.⟨d⟩K`
(spec §4.5 / §8: values ≥ 1,000 render as one-decimal `K` strings). -/
def mkCanonicalK (n d : ℕ) : String :=
  ⟨natDigits n ++ ['.', Nat.digitChar d, 'K']⟩

/-- The canonical one-decimal `M`-suffixed string `⟨n⟩.⟨d⟩M`. -/
def mkCanonicalM (n d : ℕ) : String :=
  ⟨natDigits n ++ ['.', Nat.digitChar d, 'M']⟩

/-! ## Data model -/

/-- Loop bound of the variant-1 pagination loop (`MAX_LOOPS`, line 231). -/
def MAX_LOOPS : ℕ := 10

/-- `TARGET_VIDEO_COUNT` / `MAX_VIDEOS_TO_SCRAPE` (200 in all variants). -/
def TARGET_VIDEO_COUNT : ℕ := 200

/-- An as-fetched raw item.  Fields that a given variant reads from the
upstream JSON; absent JSON fields are modelled by the JS-falsy values
`""` / `0`, which is what the `||` fallbacks in the source test for. -/
structure RawVideo where
  video_id : String
  id : String
  play_count : ℤ
  plays : ℤ
  create_time : ℤ
  cover : String
  origin_cover : String
  thumbnail_url : String
deriving DecidableEq, Repr

/-- A normalized video record as assembled by the scrapers. -/
structure Video where
  id : String
  url : String
  cover : String
  views : String
  numericViews : ℤ
  createTime : ℤ
deriving DecidableEq, Repr

/-- A video record extended with the diff fields emitted by `/views`
(`{ ...video, change, changePercent }`). -/
structure DiffVideo where
  id : String
  url : String
  cover : String
  views : String
  numericViews : ℤ
  createTime : ℤ
  change : ℤ
  changePercent : ℚ
deriving DecidableEq, Repr

/-- JS `a || b` on strings (falsy = empty string). -/
def jsOrS (a b : String) : String := if a = "" then b else a

/-- JS `a || b` on integral numbers (falsy = 0). -/
def jsOrZ (a b : ℤ) : ℤ := if a = 0 then b else a

/-- The TikTok video URL built by every variant. -/
def videoUrl (username vid : String) : String :=
  "https://www.tiktok.com/@" ++ username ++ "/video/" ++ vid

/-- Normalization in variant 1 (lines 305-314).  Variant 1 emits no
`createTime` field; modelled as 0. -/
def normalizeV1 (username : String) (v : RawVideo) : Video :=
  { id := jsOrS v.video_id v.id
    url := videoUrl username v.video_id
    cover := jsOrS v.cover v.origin_cover
    views := formatViewCount v.play_count
    numericViews := v.play_count
    createTime := 0 }

/-- Normalization in variant 2 (lines 673-683): `v.id || v.video_id`,
`v.play_count || v.plays || 0`, `v.create_time || 0`. -/
def toVideoV2 (username : String) (v : RawVideo) : Video :=
  { id := jsOrS v.id v.video_id
    url := videoUrl username (jsOrS v.id v.video_id)
    cover := jsOrS v.cover (jsOrS v.origin_cover v.thumbnail_url)
    views := formatViewCount (jsOrZ v.play_count v.plays)
    numericViews := jsOrZ v.play_count v.plays
    createTime := v.create_time }

/-- Normalization in variant 3 (lines 953-960): fields are read directly
with no `||` fallback on `video_id`, `play_count`, `create_time`. -/
def toVideoV3 (username : String) (v : RawVideo) : Video :=
  { id := v.video_id
    url := videoUrl username v.video_id
    cover := jsOrS v.cover v.origin_cover
    views := formatViewCount v.play_count
    numericViews := v.play_count
    createTime := v.create_time }

/-- Variant 3's result assembly (`allVideos.map(...)`, lines 953-960):
note the absence of any deduplication step. -/
def processedV3 (username : String) (raws : List RawVideo) : List Video :=
  raws.map (toVideoV3 username)

/-- IDs of a video list. -/
def idsOf (l : List Video) : List String := l.map (fun v => v.id)

/-- The variant-1 dedup loop (lines 317-324): a `Set` of seen IDs,
keeping the first occurrence of each ID. -/
def dedupV1Go (seen : List String) : List Video → List Video
  | [] => []
  | v :: rest =>
    if v.id ∈ seen then dedupV1Go seen rest
    else v :: dedupV1Go (v.id :: seen) rest

/-- The seen-ID set after running the dedup loop over `l`. -/
def seenAfter (seen : List String) : List Video → List String
  | [] => seen
  | v :: rest =>
    if v.id ∈ seen then seenAfter seen rest
    else seenAfter (v.id :: seen) rest

/-- `uniqueVideos` of variant 1 (lines 316-326). -/
def dedupV1 (l : List Video) : List Video := dedupV1Go [] l

/-- Failure modes surfaced by the scrapers (spec §7 taxonomy restricted
to the messages actually thrown by the source). -/
inductive ScrapeError where
  | notFound
  | sessionExpired
  | emptyResult
  | rateLimited
deriving DecidableEq, Repr

/-- One response of the TikWM posts API as consumed by the variant-1
loop body (lines 240-292): browser-level `null`, the `code: -999`
Cloudflare marker, a non-zero error code, or a `code: 0` page with a
video batch, a `hasMore` flag and a next cursor. -/
inductive PageResp where
  | nullResp
  | blocked
  | badCode
  | page (videos : List RawVideo) (hasMore : Bool) (cursor : ℤ)
deriving DecidableEq, Repr

/-- The variant-1 pagination loop (lines 236-293) over a stream of page
responses, one consumed per iteration; `loops` counts completed
iterations.  Faithful points: `code !== 0` on the first iteration
throws not-found and afterwards just breaks; an empty batch breaks;
`hasMore && cursor` (cursor 0 is falsy) decides continuation; a `-999`
code throws a session-expired error even if items were collected. -/
def tikwmGo (target : ℕ) : List PageResp → ℕ → List RawVideo →
    Except ScrapeError (List RawVideo)
  | [], _, acc => .ok acc
  | p :: rest, loops, acc =>
    if target ≤ acc.length ∨ MAX_LOOPS ≤ loops then .ok acc
    else
      match p with
      | .nullResp => .ok acc
      | .blocked => .error .sessionExpired
      | .badCode => if loops = 0 then .error .notFound else .ok acc
      | .page vids more cursor =>
        if vids.isEmpty then .ok acc
        else if more ∧ cursor ≠ 0 then tikwmGo target rest (loops + 1) (acc ++ vids)
        else .ok (acc ++ vids)

/-- Variant 1's harvest (lines 216-327): loop, then normalize, dedup and
slice.  The target count (200 in the source constant) is a parameter. -/
def fetchVideosFromTikWM (username : String) (target : ℕ)
    (pages : List PageResp) : Except ScrapeError (List Video) :=
  (tikwmGo target pages 0 []).map
    (fun raws => (dedupV1 (raws.map (normalizeV1 username))).take target)

/-- Descending-creation-time order used by variant 2's
`videos.sort((a, b) => b.createTime - a.createTime)` (line 686). -/
def byCreateDesc (a b : Video) : Prop := b.createTime ≤ a.createTime

instance : DecidableRel byCreateDesc := fun a b =>
  inferInstanceAs (Decidable (b.createTime ≤ a.createTime))

instance : IsTotal Video byCreateDesc := ⟨fun a b => le_total b.createTime a.createTime⟩

instance : IsTrans Video byCreateDesc := ⟨fun _ _ _ hab hbc => le_trans hbc hab⟩

/-- The stable sort of variant 2 (line 686); JS `Array.prototype.sort`
is stable, as is insertion sort. -/
def sortByCreateDesc (l : List Video) : List Video := l.insertionSort byCreateDesc

/-- Variant 2's result assembly (lines 671-688): throw on zero collected
items, else map, sort by descending creation time, slice. -/
def fetchVideosFromCountik (username : String) (raws : List RawVideo) :
    Except ScrapeError (List Video) :=
  if raws.isEmpty then .error .emptyResult
  else .ok ((sortByCreateDesc (raws.map (toVideoV2 username))).take TARGET_VIDEO_COUNT)

/-- Variant 3's result assembly (lines 951-962): throw on zero collected
items, else map (no dedup, no sort), slice. -/
def fetchVideosViaBrowser (username : String) (raws : List RawVideo) :
    Except ScrapeError (List Video) :=
  if raws.isEmpty then .error .emptyResult
  else .ok ((processedV3 username raws).take TARGET_VIDEO_COUNT)

/-! ## Baseline diff and the `/views` handlers -/

/-- `parseFloat(x.toFixed(2))`: round to 2 decimal places. -/
def round2 (q : ℚ) : ℚ := (round (q * 100) : ℤ) / 100

/-- Per-item diff of variants 1 and 2 (lines 411-423 / 782-794):
`change = current - previous`; percent is `change/previous*100` for a
positive previous value, else 100 for a positive change, else 0;
rounded to 2 decimals. -/
def diffItemV1 (prev : Option ℤ) (cur : ℤ) : ℤ × ℚ :=
  match prev with
  | none => (0, round2 0)
  | some p =>
    let change := cur - p
    let pct : ℚ :=
      if 0 < p then ((change : ℤ) : ℚ) / ((p : ℤ) : ℚ) * 100
      else if 0 < change then 100 else 0
    (change, round2 pct)

/-- Per-item diff of variant 3 (lines 996-1003): as `diffItemV1` but
with no zero-previous special case — the percent stays 0 whenever the
previous value is not positive. -/
def diffItemV3 (prev : Option ℤ) (cur : ℤ) : ℤ × ℚ :=
  match prev with
  | none => (0, round2 0)
  | some p =>
    let change := cur - p
    let pct : ℚ := if 0 < p then ((change : ℤ) : ℚ) / ((p : ℤ) : ℚ) * 100 else 0
    (change, round2 pct)

/-- JS-object lookup on an association list (exact key equality). -/
def alookup {β : Type} (k : String) : List (String × β) → Option β
  | [] => none
  | p :: ps => if p.1 = k then some p.2 else alookup k ps

/-- JS-object assignment `m[k] = v`: update in place if the key exists,
else append (insertion order preserved, as JS objects do). -/
def objSet {β : Type} (m : List (String × β)) (k : String) (v : β) :
    List (String × β) :=
  if (alookup k m).isSome then m.map (fun p => if p.1 = k then (k, v) else p)
  else m ++ [(k, v)]

/-- Build a JS object from a list of key/value assignments. -/
def objOfPairs {β : Type} (ps : List (String × β)) : List (String × β) :=
  ps.foldl (fun m p => objSet m p.1 p.2) []

/-- `newHistoryMap` built by `videos.forEach(v => map[v.id] = v.numericViews)`. -/
def histOf (videos : List Video) : List (String × ℤ) :=
  objOfPairs (videos.map (fun v => (v.id, v.numericViews)))

/-- The same map built from diffed videos (ids and views unchanged). -/
def histOfDiff (videos : List DiffVideo) : List (String × ℤ) :=
  objOfPairs (videos.map (fun v => (v.id, v.numericViews)))

/-- `user.toString().replace('@', '').trim()` of the `/views` handlers. -/
def cleanUser (u : String) : String := ⟨jsTrim (removeFirst '@' u.data)⟩

/-- `addToWatchedUsers` (lines 65-72): append the handle if new. -/
def addToWatchedUsers (username : String) (watched : List String) : List String :=
  if username ∈ watched then watched else watched ++ [username]

/-- An HTTP response of the `/views` route: a success payload (with its
`isCached` marker and video list) or an error status. -/
inductive Resp where
  | ok (cached : Bool) (videos : List DiffVideo)
  | err (status : ℕ)
deriving DecidableEq, Repr

/-- Observable outcome of one `/views` request: the response, the watch
list and global history after the request, and whether a harvest was
attempted. -/
structure HandlerOut where
  resp : Resp
  watchedAfter : List String
  historyAfter : List (String × List (String × ℤ))
  harvested : Bool
deriving DecidableEq, Repr

/-- `{ ...video, change, changePercent }` with the variant-1 diff. -/
def mkDiffV1 (hist : List (String × ℤ)) (video : Video) : DiffVideo :=
  { id := video.id, url := video.url, cover := video.cover, views := video.views
    numericViews := video.numericViews, createTime := video.createTime
    change := (diffItemV1 (alookup video.id hist) video.numericViews).1
    changePercent := (diffItemV1 (alookup video.id hist) video.numericViews).2 }

/-- `{ ...video, change, changePercent }` with the variant-3 diff. -/
def mkDiffV3 (hist : List (String × ℤ)) (video : Video) : DiffVideo :=
  { id := video.id, url := video.url, cover := video.cover, views := video.views
    numericViews := video.numericViews, createTime := video.createTime
    change := (diffItemV3 (alookup video.id hist) video.numericViews).1
    changePercent := (diffItemV3 (alookup video.id hist) video.numericViews).2 }

/-- Variant 1's error status (line 402): 404 for the not-found message,
500 otherwise. -/
def errStatusV1 (e : ScrapeError) : ℕ := if e = .notFound then 404 else 500

/-- The `/views` handler of variant 1 (lines 389-437).  On scrape failure
it always answers with an error status (no cached fallback); history is
written only on the first-ever harvest of the subject. -/
def viewsHandlerV1 (userParam : Option String) (watched : List String)
    (globalHistory : List (String × List (String × ℤ)))
    (scrape : Except ScrapeError (List Video)) : HandlerOut :=
  match userParam with
  | none => ⟨.err 400, watched, globalHistory, false⟩
  | some u =>
    let target := cleanUser u
    let watched2 := addToWatchedUsers target watched
    let userHistory := (alookup target globalHistory).getD []
    match scrape with
    | .error e => ⟨.err (errStatusV1 e), watched2, globalHistory, true⟩
    | .ok videos =>
      let finalVideos := videos.map (mkDiffV1 userHistory)
      if userHistory.isEmpty then
        ⟨.ok false finalVideos, watched2,
          objSet globalHistory target (histOfDiff finalVideos), true⟩
      else ⟨.ok false finalVideos, watched2, globalHistory, true⟩

/-- A cached-fallback video of variant 2 (lines 757-765); the JS object
carries no `createTime`, modelled as 0. -/
def fallbackVideoV2 (target : String) (p : String × ℤ) : DiffVideo :=
  { id := p.1, url := videoUrl target p.1, cover := "", views := formatViewCount p.2
    numericViews := p.2, createTime := 0, change := 0, changePercent := 0 }

/-- The `/views` handler of variant 2 (lines 742-808).  On scrape failure
with a non-empty stored history it answers the cached state with
`isCached: true`; with no stored history it answers 500.  On success
it rewrites the subject's whole history map from the current harvest. -/
def viewsHandlerV2 (userParam : Option String) (watched : List String)
    (globalHistory : List (String × List (String × ℤ)))
    (scrape : Except ScrapeError (List Video)) : HandlerOut :=
  match userParam with
  | none => ⟨.err 400, watched, globalHistory, false⟩
  | some u =>
    let target := cleanUser u
    let watched2 := addToWatchedUsers target watched
    let userHistory := (alookup target globalHistory).getD []
    match scrape with
    | .error _ =>
      if userHistory.isEmpty then ⟨.err 500, watched2, globalHistory, true⟩
      else ⟨.ok true (userHistory.map (fallbackVideoV2 target)), watched2,
        globalHistory, true⟩
    | .ok videos =>
      let finalVideos := videos.map (mkDiffV1 userHistory)
      ⟨.ok false finalVideos, watched2,
        objSet globalHistory target (histOfDiff finalVideos), true⟩

/-- A cached-fallback video of variant 3 (lines 1014-1017); the JS object
carries neither `createTime` nor `changePercent`, both modelled as 0. -/
def fallbackVideoV3 (target : String) (p : String × ℤ) : DiffVideo :=
  { id := p.1, url := videoUrl target p.1, cover := "", views := formatViewCount p.2
    numericViews := p.2, createTime := 0, change := 0, changePercent := 0 }

/-- The `/views` handler of variant 3 (lines 976-1022): variant-3 diff
(no zero-baseline branch), first-time-only history write, cached
fallback on failure. -/
def viewsHandlerV3 (userParam : Option String) (watched : List String)
    (globalHistory : List (String × List (String × ℤ)))
    (scrape : Except ScrapeError (List Video)) : HandlerOut :=
  match userParam with
  | none => ⟨.err 400, watched, globalHistory, false⟩
  | some u =>
    let target := cleanUser u
    let watched2 := addToWatchedUsers target watched
    let userHistory := (alookup target globalHistory).getD []
    match scrape with
    | .error _ =>
      if userHistory.isEmpty then ⟨.err 500, watched2, globalHistory, true⟩
      else ⟨.ok true (userHistory.map (fallbackVideoV3 target)), watched2,
        globalHistory, true⟩
    | .ok videos =>
      let finalVideos := videos.map (mkDiffV3 userHistory)
      if userHistory.isEmpty then
        ⟨.ok false finalVideos, watched2,
          objSet globalHistory target (histOfDiff finalVideos), true⟩
      else ⟨.ok false finalVideos, watched2, globalHistory, true⟩

/-- Per-user step of the variant-1 daily cron (lines 350-356): with a
non-empty harvest the subject's history map is replaced wholesale;
variant 2's 2-hourly cron (lines 713-717) is identical. -/
def cronUpdateUserV1 (oldUserHist : List (String × ℤ)) (videos : List Video) :
    List (String × ℤ) :=
  if videos.isEmpty then oldUserHist else histOf videos

/-- Per-user step of the variant-3 half-hourly cron (lines 1031-1035):
the harvest is merged into the existing map, absent items kept. -/
def cronUpdateUserV3 (oldUserHist : List (String × ℤ)) (videos : List Video) :
    List (String × ℤ) :=
  videos.foldl (fun m v => objSet m v.id v.numericViews) oldUserHist

/-- Key of a collected item in variant 2's response listener
(line 561: `const id = v.id || v.video_id`) — the same key the later
`toVideoV2` mapping emits as the item id. -/
def collectKeyV2 (v : RawVideo) : String := jsOrS v.id v.video_id

/-- One step of variant 2's Map-based collection (lines 560-566):
`if (id && !collectedVideos.has(id)) collectedVideos.set(id, v)` —
a falsy (empty) key or an already-collected key is skipped; a new key
is appended in insertion order. -/
def collectV2Add (m : List (String × RawVideo)) (v : RawVideo) :
    List (String × RawVideo) :=
  if collectKeyV2 v ≠ "" ∧ (alookup (collectKeyV2 v) m).isSome = false then
    m ++ [(collectKeyV2 v, v)]
  else m

/-- Variant 2's `collectedVideos` Map (lines 544, 550-571) after the
response listener has consumed the given sequence of API batches, as an
insertion-ordered association list. -/
def collectV2 (batches : List (List RawVideo)) : List (String × RawVideo) :=
  batches.foldl (fun m batch => batch.foldl collectV2Add m) []

/-- Variant 2's harvest end to end: Map-based collection (lines 550-571),
then `Array.from(collectedVideos.values())` feeding the result assembly
(lines 671-688). -/
def countikHarvest (username : String) (batches : List (List RawVideo)) :
    Except ScrapeError (List Video) :=
  fetchVideosFromCountik username ((collectV2 batches).map Prod.snd)

/-! ## Concrete data for the spec's worked examples -/

def s12_3K : String := "12.3K"

def s1_0M : String := "1.0M"

def s1_2345K : String := "1.2345K"

def sM : String := "M"

def sM5 : String := "M5"

def s1c234K : String := "1,234K"

def uStr : String := "u"

def aliceStr : String := "alice"

def bobStr : String := "bob"

def v1Str : String := "v1"

def aStr : String := "a"

def bStr : String := "b"

/-- A raw video with a fixed id, used for duplicate-preservation checks. -/
def rawDup : RawVideo := ⟨"x", "", 3, 0, 1, "", "", ""⟩

/-- Raw videos with pairwise distinct ids (decimal rendering of `i`). -/
def mkRawN (i : ℕ) : RawVideo := ⟨⟨natDigits i⟩, "", 5, 0, 0, "", "", ""⟩

/-- Two pages with 33 + 7 distinct items, the second with `hasMore=false`:
the 40-unique-items-source of the spec's end-to-end scenario. -/
def scenarioPages : List PageResp :=
  [PageResp.page ((List.range 33).map mkRawN) true 1,
   PageResp.page ((List.range 7).map (fun i => mkRawN (33 + i))) false 0]

/-- Raw videos with creation times 5 and 9, in ascending source order. -/
def raw5 : RawVideo := ⟨"p5", "", 7, 0, 5, "", "", ""⟩

def raw9 : RawVideo := ⟨"p9", "", 8, 0, 9, "", "", ""⟩

/-- A persisted baseline of 10 items for subject "bob" (spec §8 fallback
scenario). -/
def bobHist10 : List (String × ℤ) :=
  [("b1", 1), ("b2", 2), ("b3", 3), ("b4", 4), ("b5", 5),
   ("b6", 6), ("b7", 7), ("b8", 8), ("b9", 9), ("b10", 10)]

def ghBob10 : List (String × List (String × ℤ)) := [("bob", bobHist10)]

/-- A baseline of 1000 views for item "v1" of subject "bob". -/
def ghBobV1 : List (String × List (String × ℤ)) := [("bob", [("v1", 1000)])]

/-- A harvested video for item "v1" with current metric 1500. -/
def vid1500 : Video := ⟨"v1", "", "", "", 1500, 0⟩

/-- A harvested video for item "a" with current metric 6. -/
def vidA6 : Video := ⟨"a", "", "", "", 6, 0⟩

/-- A stored per-user history holding items "a" and "b". -/
def histAB : List (String × ℤ) := [("a", 5), ("b", 7)]

/-! ## Character and digit-list lemmas -/

lemma dropWhile_eq_self_of_all {p : Char → Bool} {l : List Char}
    (h : ∀ c ∈ l, p c = false) : l.dropWhile p = l := by
  cases l with
  | nil => rfl
  | cons x xs => simp [List.dropWhile, h x (List.mem_cons_self x xs)]

lemma jsTrim_eq_self {l : List Char} (h : ∀ c ∈ l, isWs c = false) :
    jsTrim l = l := by
  unfold jsTrim
  rw [dropWhile_eq_self_of_all h]
  rw [dropWhile_eq_self_of_all (fun c hc => h c (List.mem_reverse.mp hc))]
  exact List.reverse_reverse l

lemma map_eq_self {f : Char → Char} {l : List Char} (h : ∀ c ∈ l, f c = c) :
    l.map f = l := by
  induction l with
  | nil => rfl
  | cons x xs ih =>
    simp only [List.map_cons, h x (List.mem_cons_self x xs)]
    rw [ih (fun c hc => h c (List.mem_cons_of_mem x hc))]

lemma contains_eq_false {l : List Char} {a : Char} (h : ∀ c ∈ l, c ≠ a) :
    l.contains a = false := by
  induction l with
  | nil => rfl
  | cons x xs ih =>
    simp only [List.contains_cons, Bool.or_eq_false_iff]
    refine ⟨beq_eq_false_iff_ne.mpr ?_, ih (fun c hc => h c (List.mem_cons_of_mem x hc))⟩
    exact fun e => (h x (List.mem_cons_self x xs)) e.symm

lemma contains_eq_true {l : List Char} {a : Char} (h : a ∈ l) :
    l.contains a = true := by
  induction l with
  | nil => cases h
  | cons x xs ih =>
    rcases List.mem_cons.mp h with h1 | h2
    · subst h1
      simp [List.contains_cons]
    · simp only [List.contains_cons, ih h2, Bool.or_true]

lemma removeFirst_append_notmem {c : Char} {l r : List Char}
    (h : ∀ x ∈ l, x ≠ c) : removeFirst c (l ++ c :: r) = l ++ r := by
  induction l with
  | nil => simp [removeFirst]
  | cons x xs ih =>
    have hx : x ≠ c := h x (List.mem_cons_self x xs)
    rw [List.cons_append, removeFirst, if_neg hx,
      ih (fun y hy => h y (List.mem_cons_of_mem x hy))]
    simp

lemma parseSign_cons {x : Char} {xs : List Char} (h1 : x ≠ '-') (h2 : x ≠ '+') :
    parseSign (x :: xs) = (false, x :: xs) := by
  simp [parseSign, h1, h2]

lemma parseSign_snd_subset {l : List Char} : ∀ c ∈ (parseSign l).2, c ∈ l := by
  cases l with
  | nil => simp [parseSign]
  | cons x xs =>
    intro c hc
    by_cases hm : x = '-'
    · simp only [parseSign, if_pos hm] at hc
      exact List.mem_cons_of_mem x hc
    · by_cases hp : x = '+'
      · simp only [parseSign, if_neg hm, if_pos hp] at hc
        exact List.mem_cons_of_mem x hc
      · simp only [parseSign, if_neg hm, if_neg hp] at hc
        exact hc

lemma takeWhile_append_of_all {p : Char → Bool} {l : List Char} {y : Char}
    (r : List Char) (hl : ∀ c ∈ l, p c = true) (hy : p y = false) :
    (l ++ y :: r).takeWhile p = l := by
  induction l with
  | nil => simp [List.takeWhile, hy]
  | cons x xs ih =>
    simp only [List.cons_append, List.takeWhile, hl x (List.mem_cons_self x xs),
      List.append_eq]
    rw [ih (fun c hc => hl c (List.mem_cons_of_mem x hc))]

lemma dropWhile_append_of_all {p : Char → Bool} {l : List Char} {y : Char}
    (r : List Char) (hl : ∀ c ∈ l, p c = true) (hy : p y = false) :
    (l ++ y :: r).dropWhile p = y :: r := by
  induction l with
  | nil => simp [List.dropWhile, hy]
  | cons x xs ih =>
    simp only [List.cons_append, List.dropWhile, hl x (List.mem_cons_self x xs),
      List.append_eq]
    exact ih (fun c hc => hl c (List.mem_cons_of_mem x hc))

lemma takeWhile_eq_self_of_all {p : Char → Bool} {l : List Char}
    (hl : ∀ c ∈ l, p c = true) : l.takeWhile p = l := by
  induction l with
  | nil => rfl
  | cons x xs ih =>
    simp only [List.takeWhile, hl x (List.mem_cons_self x xs)]
    rw [ih (fun c hc => hl c (List.mem_cons_of_mem x hc))]

lemma dropWhile_eq_nil_of_all {p : Char → Bool} {l : List Char}
    (hl : ∀ c ∈ l, p c = true) : l.dropWhile p = [] := by
  induction l with
  | nil => rfl
  | cons x xs ih =>
    simp only [List.dropWhile, hl x (List.mem_cons_self x xs)]
    exact ih (fun c hc => hl c (List.mem_cons_of_mem x hc))

/-- The ten decimal digit characters. -/
def digitChars : List Char := ['0', '1', '2', '3', '4', '5', '6', '7', '8', '9']

lemma digitChar_mem_digitChars {n : ℕ} (h : n < 10) :
    Nat.digitChar n ∈ digitChars := by
  interval_cases n <;> decide

lemma digitVal_digitChar {n : ℕ} (h : n < 10) :
    digitVal (Nat.digitChar n) = n := by
  interval_cases n <;> decide

lemma digitChars_facts : ∀ c ∈ digitChars,
    Char.toUpper c = c ∧ isWs c = false ∧ c ≠ 'M' ∧ c ≠ 'K' ∧ c ≠ ',' ∧
    Char.isDigit c = true ∧ c ≠ '-' ∧ c ≠ '+' ∧ c ≠ '.' := by decide

lemma natDigitsGo_mem {fuel n : ℕ} (h : n < fuel) :
    ∀ c ∈ natDigitsGo fuel n, c ∈ digitChars := by
  induction fuel generalizing n with
  | zero => omega
  | succ f ih =>
    intro c hc
    by_cases h10 : n < 10
    · simp only [natDigitsGo, if_pos h10, List.mem_singleton] at hc
      subst hc
      exact digitChar_mem_digitChars h10
    · simp only [natDigitsGo, if_neg h10, List.mem_append, List.mem_singleton] at hc
      rcases hc with hc | hc
      · exact ih (by omega : n / 10 < f) c hc
      · subst hc
        exact digitChar_mem_digitChars (Nat.mod_lt n (by omega))

lemma natDigits_mem (n : ℕ) : ∀ c ∈ natDigits n, c ∈ digitChars :=
  natDigitsGo_mem (Nat.lt_succ_self n)

lemma natDigitsGo_ne_nil {fuel n : ℕ} (h : n < fuel) : natDigitsGo fuel n ≠ [] := by
  cases fuel with
  | zero => omega
  | succ f =>
    by_cases h10 : n < 10
    · simp [natDigitsGo, if_pos h10]
    · simp [natDigitsGo, if_neg h10]

lemma natDigits_ne_nil (n : ℕ) : natDigits n ≠ [] :=
  natDigitsGo_ne_nil (Nat.lt_succ_self n)

lemma digitsValFrom_append_singleton (a : ℕ) (l : List Char) (c : Char) :
    digitsValFrom a (l ++ [c]) = 10 * digitsValFrom a l + digitVal c := by
  simp [digitsValFrom, List.foldl_append]

lemma digitsValFrom_natDigitsGo {fuel n : ℕ} (h : n < fuel) (a : ℕ) :
    digitsValFrom a (natDigitsGo fuel n) =
      a * 10 ^ (natDigitsGo fuel n).length + n := by
  induction fuel generalizing n a with
  | zero => omega
  | succ f ih =>
    by_cases h10 : n < 10
    · simp only [natDigitsGo, if_pos h10, digitsValFrom, List.foldl_cons,
        List.foldl_nil, List.length_singleton, pow_one]
      rw [digitVal_digitChar h10]
      ring
    · have hrec : n / 10 < f := by
        have := Nat.div_lt_self (by omega : 0 < n) (by omega : 1 < 10)
        omega
      simp only [natDigitsGo, if_neg h10]
      rw [digitsValFrom_append_singleton, ih hrec a]
      rw [digitVal_digitChar (Nat.mod_lt n (by omega))]
      simp only [List.length_append, List.length_singleton, pow_succ]
      have h2 : 10 * (a * 10 ^ (natDigitsGo f (n / 10)).length + n / 10) + n % 10 =
          a * (10 ^ (natDigitsGo f (n / 10)).length * 10) + (10 * (n / 10) + n % 10) := by
        ring
      rw [h2, Nat.div_add_mod]

lemma digitsVal_natDigits (n : ℕ) : digitsVal (natDigits n) = n := by
  unfold digitsVal natDigits
  rw [digitsValFrom_natDigitsGo (Nat.lt_succ_self n) 0]
  simp

lemma digit_toUpper : ∀ c ∈ digitChars, Char.toUpper c = c := by decide

lemma digit_not_ws : ∀ c ∈ digitChars, isWs c = false := by decide

lemma digit_ne_M : ∀ c ∈ digitChars, c ≠ 'M' := by decide

lemma digit_ne_K : ∀ c ∈ digitChars, c ≠ 'K' := by decide

lemma digit_isDigit : ∀ c ∈ digitChars, Char.isDigit c = true := by decide

lemma digit_ne_minus : ∀ c ∈ digitChars, c ≠ '-' := by decide

lemma digit_ne_plus : ∀ c ∈ digitChars, c ≠ '+' := by decide

lemma digitsVal_singleton (c : Char) : digitsVal [c] = digitVal c := by
  simp [digitsVal, digitsValFrom]

/-- `parseFloat` character analysis of the canonical mantissa `⟨n⟩.⟨d⟩`. -/
lemma jsParseFloatSyn_canonical (n d : ℕ) (hd : d < 10) :
    jsParseFloatSyn (natDigits n ++ ['.', Nat.digitChar d]) =
      some ⟨false, n, d, 1, false, 0⟩ := by
  obtain ⟨x, xs, hx⟩ := List.exists_cons_of_ne_nil (natDigits_ne_nil n)
  have hxd : x ∈ digitChars := natDigits_mem n x (by rw [hx]; exact List.mem_cons_self x xs)
  have hdcd : Nat.digitChar d ∈ digitChars := digitChar_mem_digitChars hd
  have hnw : ∀ c ∈ natDigits n ++ ['.', Nat.digitChar d], isWs c = false := by
    intro c hc
    rcases List.mem_append.mp hc with h1 | h1
    · exact digit_not_ws c (natDigits_mem n c h1)
    · rcases List.mem_cons.mp h1 with h2 | h2
      · subst h2; decide
      · rw [List.mem_singleton.mp h2]; exact digit_not_ws _ hdcd
  have hdrop : (natDigits n ++ ['.', Nat.digitChar d]).dropWhile isWs =
      natDigits n ++ ['.', Nat.digitChar d] := dropWhile_eq_self_of_all hnw
  have hsign : parseSign (natDigits n ++ ['.', Nat.digitChar d]) =
      (false, natDigits n ++ ['.', Nat.digitChar d]) := by
    rw [hx, List.cons_append]
    exact parseSign_cons (digit_ne_minus x hxd) (digit_ne_plus x hxd)
  have halldig : ∀ c ∈ natDigits n, Char.isDigit c = true :=
    fun c hc => digit_isDigit c (natDigits_mem n c hc)
  have htake : (natDigits n ++ ['.', Nat.digitChar d]).takeWhile Char.isDigit =
      natDigits n := takeWhile_append_of_all _ halldig (by decide)
  have hdrop2 : (natDigits n ++ ['.', Nat.digitChar d]).dropWhile Char.isDigit =
      '.' :: [Nat.digitChar d] := dropWhile_append_of_all _ halldig (by decide)
  have hdd : ∀ c ∈ [Nat.digitChar d], Char.isDigit c = true := by
    intro c hc
    rw [List.mem_singleton.mp hc]
    exact digit_isDigit _ hdcd
  have htk2 : [Nat.digitChar d].takeWhile Char.isDigit = [Nat.digitChar d] :=
    takeWhile_eq_self_of_all hdd
  have hdp2 : [Nat.digitChar d].dropWhile Char.isDigit = [] :=
    dropWhile_eq_nil_of_all hdd
  have hne : (natDigits n).isEmpty = false := by
    rw [hx]; rfl
  simp only [jsParseFloatSyn, hdrop, hsign, htake, hdrop2, htk2, hdp2, hne,
    Bool.false_and, Bool.false_eq_true, if_false, if_pos rfl, if_true]
  rw [digitsVal_natDigits, digitsVal_singleton, digitVal_digitChar hd]
  simp

lemma FloatSyn_val_canonical (n d : ℕ) :
    FloatSyn.val ⟨false, n, d, 1, false, 0⟩ = (n : ℚ) + (d : ℚ) / 10 := by
  simp only [FloatSyn.val]
  norm_num

lemma canonical_chars_fix {n d : ℕ} (hd : d < 10) {suf : Char}
    (hsuf : suf = 'M' ∨ suf = 'K') :
    ∀ c ∈ natDigits n ++ ['.', Nat.digitChar d, suf],
      Char.toUpper c = c ∧ isWs c = false := by
  intro c hc
  have hdcd := digitChar_mem_digitChars hd
  rcases List.mem_append.mp hc with h1 | h1
  · exact ⟨digit_toUpper c (natDigits_mem n c h1), digit_not_ws c (natDigits_mem n c h1)⟩
  · rcases List.mem_cons.mp h1 with h2 | h2
    · subst h2; exact ⟨by decide, by decide⟩
    · rcases List.mem_cons.mp h2 with h3 | h3
      · rw [h3]; exact ⟨digit_toUpper _ hdcd, digit_not_ws _ hdcd⟩
      · rw [List.mem_singleton.mp h3]
        rcases hsuf with h | h <;> subst h <;> exact ⟨by decide, by decide⟩

lemma parseViewCount_mkCanonicalK (n d : ℕ) (hd : d < 10) :
    parseViewCount (mkCanonicalK n d) =
      JSNum.num (((n : ℚ) + (d : ℚ) / 10) * 1000) := by
  have hdcd := digitChar_mem_digitChars hd
  have hdata : (mkCanonicalK n d).data = natDigits n ++ ['.', Nat.digitChar d, 'K'] := rfl
  have hfix := canonical_chars_fix (n := n) hd (Or.inr rfl)
  have hmap : (natDigits n ++ ['.', Nat.digitChar d, 'K']).map Char.toUpper =
      natDigits n ++ ['.', Nat.digitChar d, 'K'] :=
    map_eq_self (fun c hc => (hfix c hc).1)
  have htrim : jsTrim (natDigits n ++ ['.', Nat.digitChar d, 'K']) =
      natDigits n ++ ['.', Nat.digitChar d, 'K'] :=
    jsTrim_eq_self (fun c hc => (hfix c hc).2)
  have hnoM : (natDigits n ++ ['.', Nat.digitChar d, 'K']).contains 'M' = false := by
    apply contains_eq_false
    intro c hc
    rcases List.mem_append.mp hc with h1 | h1
    · exact digit_ne_M c (natDigits_mem n c h1)
    · rcases List.mem_cons.mp h1 with h2 | h2
      · subst h2; decide
      · rcases List.mem_cons.mp h2 with h3 | h3
        · rw [h3]; exact digit_ne_M _ hdcd
        · rw [List.mem_singleton.mp h3]; decide
  have hK : (natDigits n ++ ['.', Nat.digitChar d, 'K']).contains 'K' = true := by
    apply contains_eq_true
    simp
  have hrm : removeFirst 'K' (natDigits n ++ ['.', Nat.digitChar d, 'K']) =
      natDigits n ++ ['.', Nat.digitChar d] := by
    have hsplit : natDigits n ++ ['.', Nat.digitChar d, 'K'] =
        (natDigits n ++ ['.', Nat.digitChar d]) ++ 'K' :: [] := by simp
    rw [hsplit, removeFirst_append_notmem, List.append_nil]
    intro x hx
    rcases List.mem_append.mp hx with h1 | h1
    · exact digit_ne_K x (natDigits_mem n x h1)
    · rcases List.mem_cons.mp h1 with h2 | h2
      · subst h2; decide
      · rw [List.mem_singleton.mp h2]; exact digit_ne_K _ hdcd
  have hempty : ¬ (natDigits n ++ ['.', Nat.digitChar d, 'K'] = []) := by
    intro he
    exact natDigits_ne_nil n (List.append_eq_nil.mp he).1
  simp only [parseViewCount, hdata, hmap, htrim, hnoM, hK, hrm,
    Bool.false_eq_true, if_false, if_true, if_neg hempty]
  rw [jsParseFloat, jsParseFloatSyn_canonical n d hd]
  simp only [Option.map_some', ofParseFloat, JSNum.scale, FloatSyn_val_canonical]

lemma parseViewCount_mkCanonicalM (n d : ℕ) (hd : d < 10) :
    parseViewCount (mkCanonicalM n d) =
      JSNum.num (((n : ℚ) + (d : ℚ) / 10) * 1000000) := by
  have hdcd := digitChar_mem_digitChars hd
  have hdata : (mkCanonicalM n d).data = natDigits n ++ ['.', Nat.digitChar d, 'M'] := rfl
  have hfix := canonical_chars_fix (n := n) hd (Or.inl rfl)
  have hmap : (natDigits n ++ ['.', Nat.digitChar d, 'M']).map Char.toUpper =
      natDigits n ++ ['.', Nat.digitChar d, 'M'] :=
    map_eq_self (fun c hc => (hfix c hc).1)
  have htrim : jsTrim (natDigits n ++ ['.', Nat.digitChar d, 'M']) =
      natDigits n ++ ['.', Nat.digitChar d, 'M'] :=
    jsTrim_eq_self (fun c hc => (hfix c hc).2)
  have hM : (natDigits n ++ ['.', Nat.digitChar d, 'M']).contains 'M' = true := by
    apply contains_eq_true
    simp
  have hrm : removeFirst 'M' (natDigits n ++ ['.', Nat.digitChar d, 'M']) =
      natDigits n ++ ['.', Nat.digitChar d] := by
    have hsplit : natDigits n ++ ['.', Nat.digitChar d, 'M'] =
        (natDigits n ++ ['.', Nat.digitChar d]) ++ 'M' :: [] := by simp
    rw [hsplit, removeFirst_append_notmem, List.append_nil]
    intro x hx
    rcases List.mem_append.mp hx with h1 | h1
    · exact digit_ne_M x (natDigits_mem n x h1)
    · rcases List.mem_cons.mp h1 with h2 | h2
      · subst h2; decide
      · rw [List.mem_singleton.mp h2]; exact digit_ne_M _ hdcd
  have hempty : ¬ (natDigits n ++ ['.', Nat.digitChar d, 'M'] = []) := by
    intro he
    exact natDigits_ne_nil n (List.append_eq_nil.mp he).1
  simp only [parseViewCount, hdata, hmap, htrim, hM, hrm, if_true, if_neg hempty]
  rw [jsParseFloat, jsParseFloatSyn_canonical n d hd]
  simp only [Option.map_some', ofParseFloat, JSNum.scale, FloatSyn_val_canonical]

lemma formatViewCount_canonicalK (n d : ℕ) (h1 : 1 ≤ n) (h2 : n ≤ 999)
    (hd : d < 10) :
    formatViewCount ((1000 * n + 100 * d : ℕ) : ℤ) = mkCanonicalK n d := by
  have hlt : ¬ (1000000 ≤ ((1000 * n + 100 * d : ℕ) : ℤ)) := by
    push_cast
    omega
  have hge : 1000 ≤ ((1000 * n + 100 * d : ℕ) : ℤ) := by
    push_cast
    omega
  rw [formatViewCount, if_neg hlt, if_pos hge]
  have hq : ((((1000 * n + 100 * d : ℕ) : ℤ) : ℚ)) / 1000 * 10 =
      ((10 * n + d : ℕ) : ℚ) := by
    push_cast
    ring
  rw [toFixed1, hq, round_natCast]
  have hm : ¬ (((10 * n + d : ℕ) : ℤ) < 0) := by omega
  rw [toFixed1Digits, if_neg hm]
  have ht : ((10 * n + d : ℕ) : ℤ).toNat = 10 * n + d := by omega
  rw [ht]
  have hdiv : (10 * n + d) / 10 = n := by omega
  have hmod : (10 * n + d) % 10 = d := by omega
  rw [hdiv, hmod, mkCanonicalK]
  congr 1
  simp

lemma formatViewCount_canonicalM (n d : ℕ) (h1 : 1 ≤ n) (hd : d < 10) :
    formatViewCount ((1000000 * n + 100000 * d : ℕ) : ℤ) = mkCanonicalM n d := by
  have hge : 1000000 ≤ ((1000000 * n + 100000 * d : ℕ) : ℤ) := by
    push_cast
    omega
  rw [formatViewCount, if_pos hge]
  have hq : ((((1000000 * n + 100000 * d : ℕ) : ℤ) : ℚ)) / 1000000 * 10 =
      ((10 * n + d : ℕ) : ℚ) := by
    push_cast
    ring
  rw [toFixed1, hq, round_natCast]
  have hm : ¬ (((10 * n + d : ℕ) : ℤ) < 0) := by omega
  rw [toFixed1Digits, if_neg hm]
  have ht : ((10 * n + d : ℕ) : ℤ).toNat = 10 * n + d := by omega
  rw [ht]
  have hdiv : (10 * n + d) / 10 = n := by omega
  have hmod : (10 * n + d) % 10 = d := by omega
  rw [hdiv, hmod, mkCanonicalM]
  congr 1
  simp

lemma mem_jsTrim {c : Char} {l : List Char} (h : c ∈ jsTrim l) : c ∈ l := by
  unfold jsTrim at h
  have h1 := List.mem_reverse.mp h
  have h2 := (List.dropWhile_sublist (p := isWs)
    (l := (l.dropWhile isWs).reverse)).mem h1
  have h3 := List.mem_reverse.mp h2
  exact (List.dropWhile_sublist (p := isWs) (l := l)).mem h3

lemma jsParseInt_none_of_no_digit {l : List Char}
    (h : ∀ c ∈ l, Char.isDigit c = false) : jsParseInt l = none := by
  have hsub : ∀ c ∈ (parseSign (l.dropWhile isWs)).2, c ∈ l := by
    intro c hc
    have h1 := parseSign_snd_subset _ hc
    exact (List.dropWhile_sublist (p := isWs) (l := l)).mem h1
  cases hps : (parseSign (l.dropWhile isWs)).2 with
  | nil => simp [jsParseInt, hps]
  | cons x xs =>
    have hx : Char.isDigit x = false :=
      h x (hsub x (by rw [hps]; exact List.mem_cons_self x xs))
    simp [jsParseInt, hps, List.takeWhile, hx]

lemma round2_zero : round2 0 = 0 := by
  unfold round2
  simp

lemma round2_hundred : round2 (100 : ℚ) = 100 := by
  unfold round2
  rw [show ((100 : ℚ) * 100) = ((10000 : ℕ) : ℚ) by norm_num, round_natCast]
  norm_num

lemma round2_fifty : round2 (50 : ℚ) = 50 := by
  unfold round2
  rw [show ((50 : ℚ) * 100) = ((5000 : ℕ) : ℚ) by norm_num, round_natCast]
  norm_num

/-! ## Claim C1 -/

/-- Claim C1 (amended): in variants 1 and 2, for an item with an existing
baseline, the emitted change is `metric - baseline` and the percent is
`(change / baseline) * 100` rounded to 2 decimals when the baseline is
positive, else 100 for a positive change and 0 otherwise; baseline 1000
and metric 1500 yield `(500, 50.00)` and baseline 0 with metric 5 yields
100.  Variant 3's handler omits the zero-baseline special case: there
the percent is 0 whenever the baseline is not positive. -/
theorem c1_baseline_diff (p cur : ℤ) (hp : 0 < p) :
    diffItemV1 (some p) cur =
      (cur - p, round2 (((cur - p : ℤ) : ℚ) / ((p : ℤ) : ℚ) * 100)) ∧
    (∀ c : ℤ, 0 < c → diffItemV1 (some 0) c = (c, 100)) ∧
    (∀ c : ℤ, c ≤ 0 → diffItemV1 (some 0) c = (c, 0)) ∧
    diffItemV3 (some p) cur =
      (cur - p, round2 (((cur - p : ℤ) : ℚ) / ((p : ℤ) : ℚ) * 100)) ∧
    (∀ c : ℤ, diffItemV3 (some 0) c = (c, 0)) ∧
    diffItemV1 (some 1000) 1500 = (500, 50) ∧
    diffItemV1 (some 0) 5 = (5, 100) := by
  refine ⟨?_, ?_, ?_, ?_, ?_, ?_, ?_⟩
  · simp only [diffItemV1, if_pos hp]
  · intro c hc
    simp only [diffItemV1, lt_irrefl, if_false, sub_zero, if_pos hc, round2_hundred]
  · intro c hc
    simp only [diffItemV1, lt_irrefl, if_false, sub_zero, if_neg (not_lt.mpr hc),
      round2_zero]
  · simp only [diffItemV3, if_pos hp]
  · intro c
    simp only [diffItemV3, lt_irrefl, if_false, sub_zero, round2_zero]
  · have h1 : (0 : ℤ) < 1000 := by norm_num
    simp only [diffItemV1, if_pos h1]
    norm_num
    exact round2_fifty
  · have h0 : ¬ ((0 : ℤ) < 0) := lt_irrefl 0
    have h5 : (0 : ℤ) < 5 - 0 := by norm_num
    simp only [diffItemV1, if_neg h0, if_pos h5, round2_hundred]
    norm_num

/-- Witness for C1 at baseline 1000 and current metric 1500. -/
theorem c1_baseline_diff_witness :
    (0 : ℤ) < 1000 ∧
    diffItemV1 (some 1000) 1500 =
      (1500 - 1000, round2 (((1500 - 1000 : ℤ) : ℚ) / ((1000 : ℤ) : ℚ) * 100)) :=
  ⟨by norm_num, (c1_baseline_diff 1000 1500 (by norm_num)).1⟩

/-- Counterexample to C1 as stated: in variant 3's handler, an item with
baseline 0 and current metric 5 is emitted with changePercent 0, not the
claimed 100. -/
theorem c1_counterexample :
    diffItemV3 (some 0) 5 = (5, 0) ∧ ((0 : ℚ) ≠ 100) := by
  constructor
  · simp only [diffItemV3, lt_irrefl, if_false, round2_zero]
    norm_num
  · norm_num

/-! ## Claim C2 -/

/-- Claim C2: the metric parser and formatter are mutually inverse on
canonical one-decimal suffixed strings (mantissa `n.d` with `1 ≤ n ≤ 999`
for `K`, `1 ≤ n` for `M`): parsing such a string yields the exact integer
it denotes and formatting that integer reproduces the string; concretely
`parse "12.3K" = 12300`, `format 12300 = "12.3K"`, `parse "1.0M" =
1000000`. -/
theorem c2_roundtrip (n d m e : ℕ) (hn1 : 1 ≤ n) (hn2 : n ≤ 999) (hd : d < 10)
    (hm : 1 ≤ m) (he : e < 10) :
    parseViewCount (mkCanonicalK n d) = JSNum.num ((1000 * n + 100 * d : ℕ) : ℚ) ∧
    formatViewCount ((1000 * n + 100 * d : ℕ) : ℤ) = mkCanonicalK n d ∧
    parseViewCount (mkCanonicalM m e) =
      JSNum.num ((1000000 * m + 100000 * e : ℕ) : ℚ) ∧
    formatViewCount ((1000000 * m + 100000 * e : ℕ) : ℤ) = mkCanonicalM m e ∧
    parseViewCount s12_3K = JSNum.num 12300 ∧
    formatViewCount 12300 = s12_3K ∧
    parseViewCount s1_0M = JSNum.num 1000000 := by
  refine ⟨?_, formatViewCount_canonicalK n d hn1 hn2 hd, ?_,
    formatViewCount_canonicalM m e hm he, ?_, ?_, ?_⟩
  · rw [parseViewCount_mkCanonicalK n d hd]
    congr 1
    push_cast
    ring
  · rw [parseViewCount_mkCanonicalM m e he]
    congr 1
    push_cast
    ring
  · rw [show s12_3K = mkCanonicalK 12 3 from by decide,
      parseViewCount_mkCanonicalK 12 3 (by norm_num)]
    congr 1
    norm_num
  · have h := formatViewCount_canonicalK 12 3 (by norm_num) (by norm_num) (by norm_num)
    rw [show ((1000 * 12 + 100 * 3 : ℕ) : ℤ) = 12300 from by norm_num] at h
    rw [h]
    decide
  · rw [show s1_0M = mkCanonicalM 1 0 from by decide,
      parseViewCount_mkCanonicalM 1 0 (by norm_num)]
    congr 1
    norm_num

/-- Witness for C2 at `"12.3K"` (n = 12, d = 3) and `"1.0M"` (m = 1, e = 0). -/
theorem c2_roundtrip_witness :
    ((1 : ℕ) ≤ 12 ∧ (12 : ℕ) ≤ 999 ∧ (3 : ℕ) < 10 ∧ (1 : ℕ) ≤ 1 ∧ (0 : ℕ) < 10) ∧
    (parseViewCount (mkCanonicalK 12 3) =
        JSNum.num ((1000 * 12 + 100 * 3 : ℕ) : ℚ) ∧
      formatViewCount ((1000 * 12 + 100 * 3 : ℕ) : ℤ) = mkCanonicalK 12 3 ∧
      parseViewCount (mkCanonicalM 1 0) =
        JSNum.num ((1000000 * 1 + 100000 * 0 : ℕ) : ℚ) ∧
      formatViewCount ((1000000 * 1 + 100000 * 0 : ℕ) : ℤ) = mkCanonicalM 1 0 ∧
      parseViewCount s12_3K = JSNum.num 12300 ∧
      formatViewCount 12300 = s12_3K ∧
      parseViewCount s1_0M = JSNum.num 1000000) :=
  ⟨by norm_num,
    c2_roundtrip 12 3 1 0 (by norm_num) (by norm_num) (by norm_num) (by norm_num)
      (by norm_num)⟩

/-! ## Claim C3 -/

/-- Claim C3 (amended): an `M` or `K` anywhere in the uppercased trimmed
string (`M` taking precedence, so the letter need not be trailing)
multiplies the JS-`parseFloat` value of the string with that letter's
first occurrence removed by 1,000,000 / 1,000 with NO flooring — the
result can be fractional, and is `NaN` (not 0) when no number precedes;
thousands separators are stripped only in the suffix-free branch, so
`"1,234K"` parses as 1000; a string with no digits and no `K`/`M`
parses to 0. -/
theorem c3_metric_parser_rule (n d : ℕ) (s : String) (hd : d < 10)
    (hs : ∀ c ∈ s.data, Char.isDigit (Char.toUpper c) = false ∧
      Char.toUpper c ≠ 'M' ∧ Char.toUpper c ≠ 'K') :
    parseViewCount (mkCanonicalK n d) =
      JSNum.num (((n : ℚ) + (d : ℚ) / 10) * 1000) ∧
    parseViewCount (mkCanonicalM n d) =
      JSNum.num (((n : ℚ) + (d : ℚ) / 10) * 1000000) ∧
    parseViewCount s = JSNum.num 0 ∧
    parseViewCount sM = JSNum.nan ∧
    parseViewCount sM5 = JSNum.num 5000000 ∧
    parseViewCount s1c234K = JSNum.num 1000 := by
  refine ⟨parseViewCount_mkCanonicalK n d hd, parseViewCount_mkCanonicalM n d hd,
    ?_, ?_, ?_, ?_⟩
  · by_cases hnil : s.data = []
    · rw [parseViewCount, if_pos hnil]
    · have hmemt : ∀ c ∈ jsTrim (s.data.map Char.toUpper),
          Char.isDigit c = false ∧ c ≠ 'M' ∧ c ≠ 'K' := by
        intro c hc
        obtain ⟨x, hx, hxe⟩ := List.mem_map.mp (mem_jsTrim hc)
        subst hxe
        exact hs x hx
      have hM : (jsTrim (s.data.map Char.toUpper)).contains 'M' = false :=
        contains_eq_false (fun c hc => (hmemt c hc).2.1)
      have hK : (jsTrim (s.data.map Char.toUpper)).contains 'K' = false :=
        contains_eq_false (fun c hc => (hmemt c hc).2.2)
      have hint : jsParseInt (removeAll ',' (jsTrim (s.data.map Char.toUpper))) =
          none := by
        apply jsParseInt_none_of_no_digit
        intro c hc
        exact (hmemt c (List.mem_of_mem_filter hc)).1
      simp only [parseViewCount, if_neg hnil, hM, hK, Bool.false_eq_true, if_false,
        hint, Option.getD_none, Int.cast_zero]
  · rw [parseViewCount, if_neg (by decide), if_pos (by decide),
      show removeFirst 'M' (jsTrim (sM.data.map Char.toUpper)) = [] from by decide,
      jsParseFloat, show jsParseFloatSyn [] = none from by decide]
    rfl
  · rw [parseViewCount, if_neg (by decide), if_pos (by decide),
      show removeFirst 'M' (jsTrim (sM5.data.map Char.toUpper)) = ['5'] from by
        decide,
      jsParseFloat,
      show jsParseFloatSyn ['5'] = some ⟨false, 5, 0, 0, false, 0⟩ from by decide]
    simp only [Option.map_some', ofParseFloat, JSNum.scale, FloatSyn.val]
    norm_num
  · rw [parseViewCount, if_neg (by decide), if_neg (by decide), if_pos (by decide),
      show removeFirst 'K' (jsTrim (s1c234K.data.map Char.toUpper)) =
        ['1', ',', '2', '3', '4'] from by decide,
      jsParseFloat,
      show jsParseFloatSyn ['1', ',', '2', '3', '4'] =
        some ⟨false, 1, 0, 0, false, 0⟩ from by decide]
    simp only [Option.map_some', ofParseFloat, JSNum.scale, FloatSyn.val]
    norm_num

/-- Witness for C3 at `"9.5K"` (n = 9, d = 5) and the digit-free,
suffix-free string `"abc"`. -/
theorem c3_metric_parser_rule_witness :
    (((5 : ℕ) < 10) ∧
      (∀ c ∈ ("abc" : String).data, Char.isDigit (Char.toUpper c) = false ∧
        Char.toUpper c ≠ 'M' ∧ Char.toUpper c ≠ 'K')) ∧
    (parseViewCount (mkCanonicalK 9 5) =
        JSNum.num (((9 : ℚ) + (5 : ℚ) / 10) * 1000) ∧
      parseViewCount (mkCanonicalM 9 5) =
        JSNum.num (((9 : ℚ) + (5 : ℚ) / 10) * 1000000) ∧
      parseViewCount ("abc" : String) = JSNum.num 0 ∧
      parseViewCount sM = JSNum.nan ∧
      parseViewCount sM5 = JSNum.num 5000000 ∧
      parseViewCount s1c234K = JSNum.num 1000) :=
  ⟨⟨by norm_num, by decide⟩,
    c3_metric_parser_rule 9 5 ("abc" : String) (by norm_num) (by decide)⟩

/-- Counterexample to C3 as stated: `parseViewCount "1.2345K"` is the
non-integral 1234.5 (= 2469/2); the result is not floored to 1234. -/
theorem c3_counterexample :
    parseViewCount s1_2345K = JSNum.num (2469 / 2) ∧
    ((2469 / 2 : ℚ) ≠ ((1234 : ℚ))) := by
  constructor
  · rw [parseViewCount, if_neg (by decide), if_neg (by decide), if_pos (by decide),
      show removeFirst 'K' (jsTrim (s1_2345K.data.map Char.toUpper)) =
        ['1', '.', '2', '3', '4', '5'] from by decide,
      jsParseFloat,
      show jsParseFloatSyn ['1', '.', '2', '3', '4', '5'] =
        some ⟨false, 1, 2345, 4, false, 0⟩ from by decide]
    simp only [Option.map_some', ofParseFloat, JSNum.scale, FloatSyn.val]
    norm_num
  · norm_num

/-! ## Claim C4 -/

lemma dedupV1Go_nodup_avoid (seen : List String) (l : List Video) :
    (idsOf (dedupV1Go seen l)).Nodup ∧
    ∀ i ∈ idsOf (dedupV1Go seen l), i ∉ seen := by
  induction l generalizing seen with
  | nil => simp [dedupV1Go, idsOf]
  | cons v rest ih =>
    by_cases hv : v.id ∈ seen
    · simp only [dedupV1Go, if_pos hv]
      exact ih seen
    · simp only [dedupV1Go, if_neg hv, idsOf, List.map_cons]
      obtain ⟨h1, h2⟩ := ih (v.id :: seen)
      refine ⟨List.nodup_cons.mpr ⟨fun hmem => ?_, h1⟩, ?_⟩
      · exact (h2 _ hmem) (List.mem_cons_self _ _)
      · intro i hi
        rcases List.mem_cons.mp hi with hi1 | hi2
        · subst hi1
          exact hv
        · exact fun hcon => (h2 i hi2) (List.mem_cons_of_mem _ hcon)

lemma dedupV1Go_append (seen : List String) (l l' : List Video) :
    dedupV1Go seen (l ++ l') =
      dedupV1Go seen l ++ dedupV1Go (seenAfter seen l) l' := by
  induction l generalizing seen with
  | nil => simp [dedupV1Go, seenAfter]
  | cons v rest ih =>
    by_cases hv : v.id ∈ seen
    · simp only [List.cons_append, dedupV1Go, seenAfter, if_pos hv]
      exact ih seen
    · simp only [List.cons_append, dedupV1Go, seenAfter, if_neg hv, List.append_eq]
      rw [ih (v.id :: seen)]

lemma dedupV1Go_eq_nil (seen : List String) (l : List Video)
    (h : ∀ v ∈ l, v.id ∈ seen) : dedupV1Go seen l = [] := by
  induction l with
  | nil => rfl
  | cons v rest ih =>
    simp only [dedupV1Go, if_pos (h v (List.mem_cons_self v rest))]
    exact ih (fun w hw => h w (List.mem_cons_of_mem v hw))

lemma mem_seenAfter (seen : List String) (l : List Video) :
    (∀ i ∈ idsOf l, i ∈ seenAfter seen l) ∧
    (∀ s ∈ seen, s ∈ seenAfter seen l) := by
  induction l generalizing seen with
  | nil => simp [seenAfter, idsOf]
  | cons v rest ih =>
    by_cases hv : v.id ∈ seen
    · obtain ⟨h1, h2⟩ := ih seen
      simp only [seenAfter, if_pos hv]
      refine ⟨?_, h2⟩
      intro i hi
      rw [show idsOf (v :: rest) = v.id :: idsOf rest from rfl] at hi
      rcases List.mem_cons.mp hi with hi1 | hi2
      · subst hi1
        exact h2 _ hv
      · exact h1 i hi2
    · obtain ⟨h1, h2⟩ := ih (v.id :: seen)
      simp only [seenAfter, if_neg hv]
      constructor
      · intro i hi
        rw [show idsOf (v :: rest) = v.id :: idsOf rest from rfl] at hi
        rcases List.mem_cons.mp hi with hi1 | hi2
        · subst hi1
          exact h2 _ (List.mem_cons_self _ _)
        · exact h1 i hi2
      · exact fun s hs => h2 s (List.mem_cons_of_mem _ hs)

lemma dedupV1_append_subsumed (l l' : List Video)
    (h : ∀ i ∈ idsOf l', i ∈ idsOf l) : dedupV1 (l ++ l') = dedupV1 l := by
  unfold dedupV1
  rw [dedupV1Go_append]
  have hnil : dedupV1Go (seenAfter [] l) l' = [] := by
    apply dedupV1Go_eq_nil
    intro v hv
    exact (mem_seenAfter [] l).1 v.id (h v.id (List.mem_map_of_mem _ hv))
  rw [hnil, List.append_nil]

lemma map_congr_mem {α β : Type} {f g : α → β} {l : List α}
    (h : ∀ a ∈ l, f a = g a) : l.map f = l.map g := by
  induction l with
  | nil => rfl
  | cons x xs ih =>
    simp only [List.map_cons, h x (List.mem_cons_self x xs)]
    rw [ih (fun a ha => h a (List.mem_cons_of_mem x ha))]

lemma alookup_isSome_iff {β : Type} (k : String) (m : List (String × β)) :
    (alookup k m).isSome = true ↔ k ∈ m.map Prod.fst := by
  induction m with
  | nil => simp [alookup]
  | cons p ps ih =>
    simp only [alookup, List.map_cons, List.mem_cons]
    by_cases hp : p.1 = k
    · rw [if_pos hp]
      simp [hp.symm]
    · rw [if_neg hp]
      have hk : ¬ (k = p.1) := fun e => hp e.symm
      simp [hk, ih]

lemma collectV2Add_invariant (m : List (String × RawVideo)) (v : RawVideo)
    (h : ∀ p ∈ m, p.1 = collectKeyV2 p.2) :
    ∀ p ∈ collectV2Add m v, p.1 = collectKeyV2 p.2 := by
  intro p hp
  unfold collectV2Add at hp
  by_cases hc : collectKeyV2 v ≠ "" ∧ (alookup (collectKeyV2 v) m).isSome = false
  · rw [if_pos hc] at hp
    rcases List.mem_append.mp hp with h1 | h1
    · exact h p h1
    · rw [List.mem_singleton.mp h1]
  · rw [if_neg hc] at hp
    exact h p hp

lemma collectV2Add_keys_nodup (m : List (String × RawVideo)) (v : RawVideo)
    (h : (m.map Prod.fst).Nodup) :
    ((collectV2Add m v).map Prod.fst).Nodup := by
  unfold collectV2Add
  by_cases hc : collectKeyV2 v ≠ "" ∧ (alookup (collectKeyV2 v) m).isSome = false
  · rw [if_pos hc, List.map_append]
    refine (List.perm_append_singleton _ _).nodup_iff.mpr ?_
    refine List.nodup_cons.mpr ⟨fun hmem => ?_, h⟩
    have hsome := (alookup_isSome_iff (collectKeyV2 v) m).mpr hmem
    rw [hc.2] at hsome
    exact absurd hsome (by decide)
  · rw [if_neg hc]
    exact h

lemma collectBatch_invariant (batch : List RawVideo)
    (m : List (String × RawVideo)) (h1 : ∀ p ∈ m, p.1 = collectKeyV2 p.2)
    (h2 : (m.map Prod.fst).Nodup) :
    (∀ p ∈ batch.foldl collectV2Add m, p.1 = collectKeyV2 p.2) ∧
    ((batch.foldl collectV2Add m).map Prod.fst).Nodup := by
  induction batch generalizing m with
  | nil => exact ⟨h1, h2⟩
  | cons v rest ih =>
    simp only [List.foldl_cons]
    exact ih _ (collectV2Add_invariant m v h1) (collectV2Add_keys_nodup m v h2)

lemma collectV2_invariant (batches : List (List RawVideo)) :
    (∀ p ∈ collectV2 batches, p.1 = collectKeyV2 p.2) ∧
    ((collectV2 batches).map Prod.fst).Nodup := by
  unfold collectV2
  suffices h : ∀ m, (∀ p ∈ m, p.1 = collectKeyV2 p.2) → (m.map Prod.fst).Nodup →
      (∀ p ∈ batches.foldl (fun m batch => batch.foldl collectV2Add m) m,
        p.1 = collectKeyV2 p.2) ∧
      ((batches.foldl (fun m batch => batch.foldl collectV2Add m) m).map
        Prod.fst).Nodup by
    exact h [] (by simp) (by simp)
  induction batches with
  | nil => exact fun m h1 h2 => ⟨h1, h2⟩
  | cons b bs ih =>
    intro m h1 h2
    simp only [List.foldl_cons]
    obtain ⟨g1, g2⟩ := collectBatch_invariant b m h1 h2
    exact ih _ g1 g2

lemma idsOf_countik_values (user : String) (batches : List (List RawVideo)) :
    idsOf (((collectV2 batches).map Prod.snd).map (toVideoV2 user)) =
      (collectV2 batches).map Prod.fst := by
  unfold idsOf
  rw [List.map_map, List.map_map]
  apply map_congr_mem
  intro p hp
  show (toVideoV2 user p.2).id = p.1
  rw [(collectV2_invariant batches).1 p hp]
  rfl

lemma countikHarvest_nodup (user : String) (batches : List (List RawVideo))
    (l : List Video) (hok : countikHarvest user batches = Except.ok l) :
    (idsOf l).Nodup := by
  unfold countikHarvest fetchVideosFromCountik at hok
  by_cases he : ((collectV2 batches).map Prod.snd).isEmpty
  · rw [if_pos he] at hok
    simp at hok
  · rw [if_neg he] at hok
    have hl : l = (sortByCreateDesc (((collectV2 batches).map Prod.snd).map
        (toVideoV2 user))).take TARGET_VIDEO_COUNT := by
      cases hok
      rfl
    subst hl
    have hperm : List.Perm
        (idsOf (sortByCreateDesc (((collectV2 batches).map Prod.snd).map
          (toVideoV2 user))))
        (idsOf (((collectV2 batches).map Prod.snd).map (toVideoV2 user))) := by
      unfold idsOf sortByCreateDesc
      exact (List.perm_insertionSort byCreateDesc _).map (fun v => v.id)
    have hbase : (idsOf (((collectV2 batches).map Prod.snd).map
        (toVideoV2 user))).Nodup := by
      rw [idsOf_countik_values]
      exact (collectV2_invariant batches).2
    have hsorted : (idsOf (sortByCreateDesc (((collectV2 batches).map
        Prod.snd).map (toVideoV2 user)))).Nodup := hperm.nodup_iff.mpr hbase
    have htake : idsOf ((sortByCreateDesc (((collectV2 batches).map Prod.snd).map
          (toVideoV2 user))).take TARGET_VIDEO_COUNT) =
        (idsOf (sortByCreateDesc (((collectV2 batches).map Prod.snd).map
          (toVideoV2 user)))).take TARGET_VIDEO_COUNT := by
      simp [idsOf, List.map_take]
    rw [htake]
    exact hsorted.sublist (List.take_sublist _ _)

lemma collectBatch_subsumed (batch : List RawVideo)
    (m : List (String × RawVideo))
    (h : ∀ v ∈ batch, (alookup (collectKeyV2 v) m).isSome = true) :
    batch.foldl collectV2Add m = m := by
  induction batch with
  | nil => rfl
  | cons v rest ih =>
    simp only [List.foldl_cons]
    have hmem := h v (List.mem_cons_self v rest)
    have hstep : collectV2Add m v = m := by
      unfold collectV2Add
      rw [if_neg (fun hc => by rw [hmem] at hc; exact absurd hc.2 (by decide))]
    rw [hstep]
    exact ih (fun w hw => h w (List.mem_cons_of_mem v hw))

lemma collectV2_resubmit (batches : List (List RawVideo)) (batch : List RawVideo)
    (h : ∀ v ∈ batch, (alookup (collectKeyV2 v) (collectV2 batches)).isSome =
      true) :
    collectV2 (batches ++ [batch]) = collectV2 batches := by
  unfold collectV2
  rw [List.foldl_append]
  simp only [List.foldl_cons, List.foldl_nil]
  exact collectBatch_subsumed batch _ h

/-- Claim C4 (amended): variants 1 and 2 enforce per-harvest ID
uniqueness — variant 1 via its Set-based dedup of the concatenated raw
list, variant 2 via the Map keyed by `v.id || v.video_id` in its
response listener — and both are idempotent under re-submission:
re-deduplicating items whose IDs were all already collected (variant 1),
or re-delivering a batch whose keys are all already in the Map
(variant 2), leaves the collected set unchanged.  Variant 3's result
assembly performs no deduplication (see the counterexample). -/
theorem c4_dedup_idempotent (user : String) (target : ℕ) (pages : List PageResp)
    (l : List Video) (l2 extra : List Video)
    (batches : List (List RawVideo)) (batch : List RawVideo) (lc : List Video)
    (hok : fetchVideosFromTikWM user target pages = Except.ok l)
    (hsub : ∀ i ∈ idsOf extra, i ∈ idsOf l2)
    (hokc : countikHarvest user batches = Except.ok lc)
    (hseen : ∀ v ∈ batch,
      (alookup (collectKeyV2 v) (collectV2 batches)).isSome = true) :
    (idsOf l).Nodup ∧ dedupV1 (l2 ++ extra) = dedupV1 l2 ∧
    (idsOf lc).Nodup ∧ collectV2 (batches ++ [batch]) = collectV2 batches := by
  refine ⟨?_, dedupV1_append_subsumed l2 extra hsub,
    countikHarvest_nodup user batches lc hokc, collectV2_resubmit batches batch hseen⟩
  unfold fetchVideosFromTikWM at hok
  cases hgo : tikwmGo target pages 0 [] with
  | error e =>
    rw [hgo] at hok
    simp [Except.map] at hok
  | ok raws =>
    rw [hgo] at hok
    simp only [Except.map] at hok
    have hl : l = (dedupV1 (raws.map (normalizeV1 user))).take target := by
      cases hok
      rfl
    subst hl
    have hnodup := (dedupV1Go_nodup_avoid [] (raws.map (normalizeV1 user))).1
    have htake : idsOf ((dedupV1 (raws.map (normalizeV1 user))).take target) =
        (idsOf (dedupV1 (raws.map (normalizeV1 user)))).take target := by
      simp [idsOf, List.map_take]
    rw [htake]
    exact hnodup.sublist (List.take_sublist _ _)

/-- Witness for C4: a one-page variant-1 harvest of a single item,
re-submitting the single already-collected item, and a one-batch
variant-2 harvest followed by re-delivery of the same batch. -/
theorem c4_dedup_idempotent_witness :
    (fetchVideosFromTikWM uStr TARGET_VIDEO_COUNT
        [PageResp.page [rawDup] false 0] =
      Except.ok [normalizeV1 uStr rawDup] ∧
      (∀ i ∈ idsOf [vidA6], i ∈ idsOf [vidA6]) ∧
      countikHarvest uStr [[rawDup]] = Except.ok [toVideoV2 uStr rawDup] ∧
      (∀ v ∈ [rawDup],
        (alookup (collectKeyV2 v) (collectV2 [[rawDup]])).isSome = true)) ∧
    ((idsOf [normalizeV1 uStr rawDup]).Nodup ∧
      dedupV1 ([vidA6] ++ [vidA6]) = dedupV1 [vidA6] ∧
      (idsOf [toVideoV2 uStr rawDup]).Nodup ∧
      collectV2 ([[rawDup]] ++ [[rawDup]]) = collectV2 [[rawDup]]) :=
  ⟨⟨rfl, fun _ hi => hi, rfl, by decide⟩,
    c4_dedup_idempotent uStr TARGET_VIDEO_COUNT [PageResp.page [rawDup] false 0]
      [normalizeV1 uStr rawDup] [vidA6] [vidA6] [[rawDup]] [rawDup]
      [toVideoV2 uStr rawDup] rfl (fun _ hi => hi) rfl (by decide)⟩

/-- Counterexample to C4 as stated: variant 3's assembly keeps duplicate
raw IDs, so a harvest page repeating one item yields a result list in
which the same ID appears twice. -/
theorem c4_counterexample :
    fetchVideosViaBrowser uStr [rawDup, rawDup] =
      Except.ok [toVideoV3 uStr rawDup, toVideoV3 uStr rawDup] ∧
    ¬ (idsOf (processedV3 uStr [rawDup, rawDup])).Nodup := by
  constructor
  · rfl
  · decide

/-! ## Claim C5 -/

lemma tikwmGo_ok_of_no_blocked (target : ℕ) (pages : List PageResp)
    (loops : ℕ) (acc : List RawVideo) (hb : PageResp.blocked ∉ pages)
    (hl : 1 ≤ loops) :
    ∃ l, tikwmGo target pages loops acc = Except.ok l := by
  induction pages generalizing loops acc with
  | nil => exact ⟨acc, rfl⟩
  | cons p rest ih =>
    by_cases hguard : target ≤ acc.length ∨ MAX_LOOPS ≤ loops
    · exact ⟨acc, by cases p <;> simp [tikwmGo, if_pos hguard]⟩
    · cases p with
      | nullResp => exact ⟨acc, by simp [tikwmGo, if_neg hguard]⟩
      | blocked => exact absurd (List.mem_cons_self _ _) hb
      | badCode =>
        have h0 : ¬ (loops = 0) := by omega
        exact ⟨acc, by simp [tikwmGo, if_neg hguard, h0]⟩
      | page vids more cursor =>
        by_cases he : vids.isEmpty
        · exact ⟨acc, by simp [tikwmGo, if_neg hguard, he]⟩
        · by_cases hmc : more = true ∧ cursor ≠ 0
          · obtain ⟨l, hrec⟩ := ih (loops + 1) (acc ++ vids)
              (fun hm => hb (List.mem_cons_of_mem _ hm)) (by omega)
            refine ⟨l, ?_⟩
            simp only [tikwmGo, if_neg hguard, he, Bool.false_eq_true, if_false,
              if_pos hmc]
            exact hrec
          · refine ⟨acc ++ vids, ?_⟩
            simp only [tikwmGo, if_neg hguard, he, Bool.false_eq_true, if_false,
              if_neg hmc]

/-- Claim C5 (amended): once the first page has been consumed without a
not-found signal, variant 1's loop always returns collected items as a
success (early termination with partial results is not an error), and the
40-unique-items scenario at target 50 succeeds with exactly 40 items.
Variants 2 and 3 raise `EmptyResult` on zero collected items, but variant
1 returns an empty success list in that case (see the counterexample). -/
theorem c5_partial_results (target : ℕ) (pages : List PageResp) (loops : ℕ)
    (acc : List RawVideo) (user : String) (r : RawVideo) (raws : List RawVideo)
    (hb : PageResp.blocked ∉ pages) (hl : 1 ≤ loops) :
    (∃ l, tikwmGo target pages loops acc = Except.ok l) ∧
    (fetchVideosFromTikWM aliceStr 50 scenarioPages).map List.length =
      Except.ok 40 ∧
    fetchVideosFromCountik user [] = Except.error ScrapeError.emptyResult ∧
    (∃ l, fetchVideosFromCountik user (r :: raws) = Except.ok l) ∧
    fetchVideosViaBrowser user [] = Except.error ScrapeError.emptyResult := by
  refine ⟨tikwmGo_ok_of_no_blocked target pages loops acc hb hl, ?_, rfl, ?_, rfl⟩
  · rfl
  · exact ⟨_, rfl⟩

/-- Witness for C5: a single successful page after the first iteration. -/
theorem c5_partial_results_witness :
    (PageResp.blocked ∉ [PageResp.page [rawDup] false 0] ∧ (1 : ℕ) ≤ 1) ∧
    ((∃ l, tikwmGo TARGET_VIDEO_COUNT [PageResp.page [rawDup] false 0] 1 [] =
        Except.ok l) ∧
      (fetchVideosFromTikWM aliceStr 50 scenarioPages).map List.length =
        Except.ok 40 ∧
      fetchVideosFromCountik uStr [] = Except.error ScrapeError.emptyResult ∧
      (∃ l, fetchVideosFromCountik uStr (rawDup :: []) = Except.ok l) ∧
      fetchVideosViaBrowser uStr [] = Except.error ScrapeError.emptyResult) :=
  ⟨⟨by decide, by decide⟩,
    c5_partial_results TARGET_VIDEO_COUNT [PageResp.page [rawDup] false 0] 1 []
      uStr rawDup [] (by decide) (by decide)⟩

/-- Counterexample to C5 as stated: in variant 1, a harvest whose only
page is a valid `code: 0` response with an empty video list terminates
with zero items and returns an empty success, not an `EmptyResult`
error. -/
theorem c5_counterexample :
    fetchVideosFromTikWM uStr TARGET_VIDEO_COUNT [PageResp.page [] true 1] =
      Except.ok [] ∧
    Except.ok ([] : List Video) ≠
      (Except.error ScrapeError.emptyResult : Except ScrapeError (List Video)) := by
  exact ⟨rfl, by simp⟩

/-! ## Claim C6 -/

/-- Claim C6 (amended): in variants 2 and 3, a failed harvest with a
non-empty persisted baseline is answered with the cached last known
state and `isCached: true` (a success), and with an HTTP 500 error when
no prior state exists.  Variant 1's handler returns an error payload
regardless of any persisted baseline (see the counterexample). -/
theorem c6_fallback (u : String) (w : List String)
    (gh gh2 : List (String × List (String × ℤ))) (e : ScrapeError)
    (hne : ((alookup (cleanUser u) gh).getD []).isEmpty = false)
    (hemp : ((alookup (cleanUser u) gh2).getD []).isEmpty = true) :
    viewsHandlerV2 (some u) w gh (.error e) =
      ⟨.ok true (((alookup (cleanUser u) gh).getD []).map
          (fallbackVideoV2 (cleanUser u))),
        addToWatchedUsers (cleanUser u) w, gh, true⟩ ∧
    viewsHandlerV3 (some u) w gh (.error e) =
      ⟨.ok true (((alookup (cleanUser u) gh).getD []).map
          (fallbackVideoV3 (cleanUser u))),
        addToWatchedUsers (cleanUser u) w, gh, true⟩ ∧
    viewsHandlerV2 (some u) w gh2 (.error e) =
      ⟨.err 500, addToWatchedUsers (cleanUser u) w, gh2, true⟩ ∧
    (viewsHandlerV2 (some bobStr) [] ghBob10 (.error .rateLimited)).resp =
      .ok true (bobHist10.map (fallbackVideoV2 bobStr)) ∧
    (bobHist10.map (fallbackVideoV2 bobStr)).length = 10 := by
  refine ⟨?_, ?_, ?_, ?_, rfl⟩
  · simp only [viewsHandlerV2, hne, Bool.false_eq_true, if_false]
  · simp only [viewsHandlerV3, hne, Bool.false_eq_true, if_false]
  · simp only [viewsHandlerV2, hemp, if_true]
  · rfl

/-- Witness for C6: subject "bob" with a 10-item baseline versus an empty
store. -/
theorem c6_fallback_witness :
    (((alookup (cleanUser bobStr) ghBob10).getD []).isEmpty = false ∧
      ((alookup (cleanUser bobStr) []).getD
          ([] : List (String × ℤ))).isEmpty = true) ∧
    (viewsHandlerV2 (some bobStr) [] ghBob10 (.error .rateLimited) =
        ⟨.ok true (((alookup (cleanUser bobStr) ghBob10).getD []).map
            (fallbackVideoV2 (cleanUser bobStr))),
          addToWatchedUsers (cleanUser bobStr) [], ghBob10, true⟩ ∧
      viewsHandlerV3 (some bobStr) [] ghBob10 (.error .rateLimited) =
        ⟨.ok true (((alookup (cleanUser bobStr) ghBob10).getD []).map
            (fallbackVideoV3 (cleanUser bobStr))),
          addToWatchedUsers (cleanUser bobStr) [], ghBob10, true⟩ ∧
      viewsHandlerV2 (some bobStr) [] [] (.error .rateLimited) =
        ⟨.err 500, addToWatchedUsers (cleanUser bobStr) [], [], true⟩ ∧
      (viewsHandlerV2 (some bobStr) [] ghBob10 (.error .rateLimited)).resp =
        .ok true (bobHist10.map (fallbackVideoV2 bobStr)) ∧
      (bobHist10.map (fallbackVideoV2 bobStr)).length = 10) :=
  ⟨⟨by decide, by decide⟩,
    c6_fallback bobStr [] ghBob10 [] .rateLimited (by decide) (by decide)⟩

/-- Counterexample to C6 as stated: variant 1 answers HTTP 500 on a
failed harvest even though subject "bob" has a non-empty persisted
baseline — no cached fallback. -/
theorem c6_counterexample :
    (viewsHandlerV1 (some bobStr) [] ghBob10 (.error .rateLimited)).resp =
      Resp.err 500 ∧
    ((alookup bobStr ghBob10).getD []).isEmpty = false := by
  exact ⟨rfl, by decide⟩

/-! ## Claim C7 -/

/-- Claim C7 (amended): the store keeps a single metric per item, which is
exactly the baseline the next diff uses.  On a non-first harvest,
variants 1 and 3 write nothing at all (baseline preserved, but no
last-observed update either), while variant 2 overwrites the subject's
map with the current metrics — so there the baseline does NOT persist to
the next reset epoch (see the counterexample). -/
theorem c7_frame (u : String) (w : List String)
    (gh : List (String × List (String × ℤ))) (videos : List Video)
    (hne : ((alookup (cleanUser u) gh).getD []).isEmpty = false) :
    (viewsHandlerV1 (some u) w gh (.ok videos)).historyAfter = gh ∧
    (viewsHandlerV3 (some u) w gh (.ok videos)).historyAfter = gh ∧
    (viewsHandlerV2 (some u) w gh (.ok videos)).historyAfter =
      objSet gh (cleanUser u)
        (histOfDiff (videos.map (mkDiffV1 ((alookup (cleanUser u) gh).getD [])))) := by
  refine ⟨?_, ?_, ?_⟩
  · simp only [viewsHandlerV1, hne, Bool.false_eq_true, if_false]
  · simp only [viewsHandlerV3, hne, Bool.false_eq_true, if_false]
  · simp only [viewsHandlerV2]

/-- Witness for C7: subject "bob" with an existing baseline for item
"v1". -/
theorem c7_frame_witness :
    (((alookup (cleanUser bobStr) ghBobV1).getD []).isEmpty = false) ∧
    ((viewsHandlerV1 (some bobStr) [] ghBobV1 (.ok [vid1500])).historyAfter =
        ghBobV1 ∧
      (viewsHandlerV3 (some bobStr) [] ghBobV1 (.ok [vid1500])).historyAfter =
        ghBobV1 ∧
      (viewsHandlerV2 (some bobStr) [] ghBobV1 (.ok [vid1500])).historyAfter =
        objSet ghBobV1 (cleanUser bobStr)
          (histOfDiff ([vid1500].map
            (mkDiffV1 ((alookup (cleanUser bobStr) ghBobV1).getD []))))) :=
  ⟨by decide, c7_frame bobStr [] ghBobV1 [vid1500] (by decide)⟩

/-- Counterexample to C7 as stated: variant 2's handler write changes the
stored metric of item "v1" from the baseline 1000 to the current 1500 on
an ordinary (non-reset) harvest, so the baseline the next diff will use
has not been left unchanged. -/
theorem c7_counterexample :
    alookup v1Str ((alookup bobStr
        (viewsHandlerV2 (some bobStr) [] ghBobV1
          (.ok [vid1500])).historyAfter).getD []) = some 1500 ∧
    alookup v1Str ((alookup bobStr ghBobV1).getD []) = some 1000 ∧
    ((1500 : ℤ) ≠ 1000) := by
  refine ⟨by decide, by decide, by norm_num⟩

/-! ## Claim C8 -/

lemma alookup_map_set_ne {β : Type} (m : List (String × β)) (k : String)
    (v : β) (id : String) (h : id ≠ k) :
    alookup id (m.map (fun p => if p.1 = k then (k, v) else p)) =
      alookup id m := by
  induction m with
  | nil => rfl
  | cons p ps ih =>
    simp only [List.map_cons]
    by_cases hp : p.1 = k
    · rw [if_pos hp]
      show alookup id ((k, v) :: _) = _
      simp only [alookup]
      rw [if_neg (fun e => h e.symm), if_neg (fun e => h (hp ▸ e).symm)]
      exact ih
    · rw [if_neg hp]
      simp only [alookup]
      by_cases hpi : p.1 = id
      · rw [if_pos hpi, if_pos hpi]
      · rw [if_neg hpi, if_neg hpi]
        exact ih

lemma alookup_append_single_ne {β : Type} (m : List (String × β)) (k : String)
    (v : β) (id : String) (h : id ≠ k) :
    alookup id (m ++ [(k, v)]) = alookup id m := by
  induction m with
  | nil =>
    simp only [List.nil_append, alookup]
    rw [if_neg (fun e => h e.symm)]
  | cons p ps ih =>
    simp only [List.cons_append, alookup]
    by_cases hpi : p.1 = id
    · rw [if_pos hpi, if_pos hpi]
    · rw [if_neg hpi, if_neg hpi]
      exact ih

lemma alookup_objSet_ne {β : Type} (m : List (String × β)) (k : String)
    (v : β) (id : String) (h : id ≠ k) :
    alookup id (objSet m k v) = alookup id m := by
  unfold objSet
  by_cases hs : (alookup k m).isSome
  · rw [if_pos hs]
    exact alookup_map_set_ne m k v id h
  · rw [if_neg hs]
    exact alookup_append_single_ne m k v id h

lemma alookup_foldl_objSet {β : Type} (ps : List (String × β))
    (m : List (String × β)) (id : String) (h : id ∉ ps.map Prod.fst) :
    alookup id (ps.foldl (fun m p => objSet m p.1 p.2) m) = alookup id m := by
  induction ps generalizing m with
  | nil => rfl
  | cons p rest ih =>
    simp only [List.foldl_cons]
    have hid : id ≠ p.1 := by
      intro e
      exact h (by rw [List.map_cons]; exact e ▸ List.mem_cons_self _ _)
    rw [ih _ (fun hm => h (by rw [List.map_cons]; exact List.mem_cons_of_mem _ hm))]
    exact alookup_objSet_ne m p.1 p.2 id hid

lemma alookup_objOfPairs_none {β : Type} (ps : List (String × β)) (id : String)
    (h : id ∉ ps.map Prod.fst) : alookup id (objOfPairs ps) = none := by
  unfold objOfPairs
  rw [alookup_foldl_objSet ps [] id h]
  rfl

/-- Claim C8 (amended): variant 3's cron merge leaves the records of
items absent from the current harvest unchanged; but the cited writes —
variant 1's cron (and variant 2's handler write, which builds the same
wholesale map) — replace the subject's map, so records of absent items
are deleted there (see the counterexample). -/
theorem c8_absent_items (old : List (String × ℤ)) (videos : List Video)
    (id : String) (hne : videos.isEmpty = false) (h : id ∉ idsOf videos) :
    alookup id (cronUpdateUserV3 old videos) = alookup id old ∧
    alookup id (cronUpdateUserV1 old videos) = none := by
  constructor
  · unfold cronUpdateUserV3
    have hfold : videos.foldl (fun m v => objSet m v.id v.numericViews) old =
        (videos.map (fun v => (v.id, v.numericViews))).foldl
          (fun m p => objSet m p.1 p.2) old := by
      rw [List.foldl_map]
    rw [hfold]
    apply alookup_foldl_objSet
    intro hm
    apply h
    rw [List.map_map] at hm
    simpa [idsOf] using hm
  · unfold cronUpdateUserV1
    simp only [hne, Bool.false_eq_true, if_false]
    unfold histOf
    apply alookup_objOfPairs_none
    intro hm
    apply h
    rw [List.map_map] at hm
    simpa [idsOf] using hm

/-- Witness for C8: item "b" is absent from a harvest containing only
item "a". -/
theorem c8_absent_items_witness :
    (([vidA6] : List Video).isEmpty = false ∧ bStr ∉ idsOf [vidA6]) ∧
    (alookup bStr (cronUpdateUserV3 histAB [vidA6]) = alookup bStr histAB ∧
      alookup bStr (cronUpdateUserV1 histAB [vidA6]) = none) :=
  ⟨⟨by decide, by decide⟩, c8_absent_items histAB [vidA6] bStr (by decide) (by decide)⟩

/-- Counterexample to C8 as stated: after variant 1's cron write of a
harvest containing only item "a", the baseline record of the previously
known item "b" is gone, though the claim says it must be left
untouched. -/
theorem c8_counterexample :
    alookup bStr (cronUpdateUserV1 histAB [vidA6]) = none ∧
    alookup bStr histAB = some 7 := by
  exact ⟨by decide, by decide⟩

/-! ## Claim C9 -/

lemma sortByCreateDesc_sorted (l : List Video) :
    List.Sorted byCreateDesc (sortByCreateDesc l) :=
  List.sorted_insertionSort byCreateDesc l

/-- Claim C9 (amended): variant 2 always sorts its result by descending
creation time (whether or not any createTime is 0), and variant 3 never
sorts — its result preserves the source's native order even when every
creation time is available and non-zero (see the counterexample). -/
theorem c9_ordering (user : String) (raws : List RawVideo) (l : List Video)
    (hok : fetchVideosFromCountik user raws = Except.ok l) :
    List.Sorted byCreateDesc l ∧
    (processedV3 user raws).map (fun v => v.createTime) =
      raws.map (fun r => r.create_time) := by
  constructor
  · unfold fetchVideosFromCountik at hok
    by_cases he : raws.isEmpty
    · rw [if_pos he] at hok
      simp at hok
    · rw [if_neg he] at hok
      have hl : l = (sortByCreateDesc (raws.map (toVideoV2 user))).take
          TARGET_VIDEO_COUNT := by
        cases hok
        rfl
      subst hl
      exact List.Pairwise.sublist (List.take_sublist _ _)
        (sortByCreateDesc_sorted _)
  · unfold processedV3
    rw [List.map_map]
    rfl

/-- Witness for C9: a one-item Countik harvest. -/
theorem c9_ordering_witness :
    (fetchVideosFromCountik uStr [raw5] = Except.ok [toVideoV2 uStr raw5]) ∧
    (List.Sorted byCreateDesc [toVideoV2 uStr raw5] ∧
      (processedV3 uStr [raw5]).map (fun v => v.createTime) =
        [raw5].map (fun r => r.create_time)) :=
  ⟨rfl, c9_ordering uStr [raw5] [toVideoV2 uStr raw5] rfl⟩

/-- Counterexample to C9 as stated: a variant-3 harvest whose two items
both carry non-zero creation times (5 then 9) is returned in native
source order, not in descending creation-time order. -/
theorem c9_counterexample :
    (processedV3 uStr [raw5, raw9]).map (fun v => v.createTime) = [5, 9] ∧
    ¬ List.Sorted byCreateDesc (processedV3 uStr [raw5, raw9]) ∧
    fetchVideosViaBrowser uStr [raw5, raw9] =
      Except.ok (processedV3 uStr [raw5, raw9]) := by
  refine ⟨rfl, ?_, rfl⟩
  intro h
  have h2 := (List.pairwise_cons.mp h).1 (toVideoV3 uStr raw9)
    (List.mem_cons_self _ _)
  have h3 : (9 : ℤ) ≤ 5 := h2
  omega

/-! ## Claim C10 -/

/-- Claim C10: a GET /views request whose `user` query parameter is
absent is answered with HTTP 400, the watch list and history are left
untouched, and no harvest is attempted — in the cited variants 1 and 3
(and in variant 2 alike). -/
theorem c10_missing_user (w : List String)
    (gh : List (String × List (String × ℤ)))
    (s : Except ScrapeError (List Video)) :
    viewsHandlerV1 none w gh s = ⟨Resp.err 400, w, gh, false⟩ ∧
    viewsHandlerV3 none w gh s = ⟨Resp.err 400, w, gh, false⟩ ∧
    viewsHandlerV2 none w gh s = ⟨Resp.err 400, w, gh, false⟩ :=
  ⟨rfl, rfl, rfl⟩
